import Mathlib

/-!
Verification of the audio hold-buffer / vision-trigger arbitration state
machine of the GrokVoiceAICompanion WebSocket client
(`static/js/websocket-client.js`, class `GrokWebSocketClient`).

The client is a single-threaded, message-driven object.  We embed it as a
state record `GrokState` plus a step function `step : GrokEnv → GrokState →
Event → GrokState` translated handler-by-handler from the source:

* `handleMessage`           → `step` (one constructor of `Event` per message
                              type the arbiter consumes);
* `_startHoldingAudio`      → `startHoldingAudio`;
* `_onUserTranscriptReceived` → `onUserTranscriptReceived`;
* `_releaseHeldAudio`       → `releaseHeldAudio`;
* `queueAudioPlayback` / `playNextAudio` / `flushAudioQueue` keep their names;
* `containsVisionTrigger` / `sendVisionQuery` keep their names;
* `analyzeVowelFromAudio` and `float32ToPCM16` are embedded as pure
  functions over `ℝ` resp. `ℚ` (the JS float arithmetic is read as real
  arithmetic).

Asynchrony that the source really has is kept: a binary `Blob` frame is not
pushed synchronously — the source calls `event.data.arrayBuffer().then(...)`
— so a blob arrival only registers a pending continuation
(`pendingBlobs`), and a separate `blobResolve` event fires the oldest
pending continuation, exactly as the promise callback would run at some
later turn of the event loop.  The vision-query promise chain of
`_onUserTranscriptReceived`, whose awaits cannot interleave with other
arbiter transitions in any way the claims observe, is run to completion
inside the same step.

Ghost fields (`enqueued`, `visionQueriesSent`, `assistantEmits`) record the
observable outputs: every chunk handed to `queueAudioPlayback`, every vision
query sent on the socket, and every assistant-transcript emission.
-/

/-- Audio chunks are opaque byte buffers; the arbiter never inspects their
contents, so we model them by an identifier. -/
abbrev Chunk := Nat

/-- What the deferred continuation of a received `Blob` frame will do when
its `arrayBuffer()` promise resolves: push into the hold buffer
(registered while `_holdingForTranscript` was set) or hand the chunk to
`queueAudioPlayback` (the `handleAudioBlob` path). -/
inductive BlobMode where
  | toHold
  | toQueue
deriving DecidableEq, Repr

/-- External conditions the client cannot control: whether the webcam can be
acquired (`initWebcam` / `captureFrame` succeed), whether the WebSocket is
open, and the frame the camera would capture. -/
structure GrokEnv where
  cameraOk : Bool
  wsOpen : Bool
  frame : Nat
deriving DecidableEq, Repr

/-- The mutable fields of `GrokWebSocketClient` that the hold-buffer /
vision arbiter reads or writes, plus ghost output logs. -/
structure GrokState where
  visionEnabled : Bool
  visionPending : Bool
  visionSuppressing : Bool
  holdingForTranscript : Bool
  heldAudioChunks : List Chunk
  heldTranscriptText : String
  holdTimeout : Bool
  audioQueue : List Chunk
  isPlaying : Bool
  currentTranscript : String
  isSpeaking : Bool
  isUserSpeaking : Bool
  pendingBlobs : List (Chunk × BlobMode)
  enqueued : List Chunk
  visionQueriesSent : List (Nat × String)
  assistantEmits : List String
deriving DecidableEq, Repr

/-- The constructor's field values. -/
def initState : GrokState where
  visionEnabled := false
  visionPending := false
  visionSuppressing := false
  holdingForTranscript := false
  heldAudioChunks := []
  heldTranscriptText := ""
  holdTimeout := false
  audioQueue := []
  isPlaying := false
  currentTranscript := ""
  isSpeaking := false
  isUserSpeaking := false
  pendingBlobs := []
  enqueued := []
  visionQueriesSent := []
  assistantEmits := []

/-- JS `String.prototype.toLowerCase` (per-character lowering). -/
def toLowerStr (s : String) : String := ⟨s.data.map Char.toLower⟩

/-- JS `String.prototype.includes`: substring containment. -/
def strIncludes (hay sub : String) : Bool :=
  (List.range (hay.length + 1)).any (fun i => sub.toList.isPrefixOf (hay.toList.drop i))

/-- The `visionTriggers` array of the constructor (lowercased substrings). -/
def visionTriggers : List String :=
  ["what am i holding", "what'm i holding",
   "look at this", "look at that",
   "what is this", "what's this",
   "what is that", "what's that",
   "what do you see", "can you see",
   "see what i", "see this",
   "what do i have", "what's in my hand",
   "what color is", "describe what",
   "take a look", "check this out",
   "what are these", "show you",
   "i'm showing you", "i am showing you",
   "do you see", "look here"]

/-- `containsVisionTrigger(text)`: lowercase the text and test whether any
configured trigger phrase occurs as a substring. -/
def containsVisionTrigger (text : String) : Bool :=
  visionTriggers.any (fun trig => strIncludes (toLowerStr text) trig)

/-- The synchronous effect of `playNextAudio()`: on an empty queue it parks
(`isPlaying = false`); otherwise it shifts the head chunk out of the queue
and starts sounding it (`isPlaying = true`).  The decode/gain/lip-sync work
on the shifted chunk has no effect on arbiter state. -/
def playNextAudio (s : GrokState) : GrokState :=
  match s.audioQueue with
  | [] => { s with isPlaying := false }
  | _ :: rest => { s with audioQueue := rest, isPlaying := true }

/-- `queueAudioPlayback(arrayBuffer)`: append the chunk to `audioQueue`
(recorded in the ghost log `enqueued`) and, if not already playing, start
playback.  -/
def queueAudioPlayback (c : Chunk) (s : GrokState) : GrokState :=
  let s := { s with audioQueue := s.audioQueue ++ [c], enqueued := s.enqueued ++ [c] }
  if s.isPlaying then s else playNextAudio s

/-- `flushAudioQueue()`: drop the queue, stop playback, clear the
accumulating transcript, and report idle (`setSpeaking(false)`). -/
def flushAudioQueue (s : GrokState) : GrokState :=
  { s with audioQueue := [], isPlaying := false, currentTranscript := "",
           isSpeaking := false }

/-- `_startHoldingAudio()`: raise the holding flag, reset the held-chunk
list and held transcript, and (re-)arm the 3000 ms safety timer. -/
def startHoldingAudio (s : GrokState) : GrokState :=
  { s with holdingForTranscript := true, heldAudioChunks := [],
           heldTranscriptText := "", holdTimeout := true }

/-- `_releaseHeldAudio()`: leave the holding state, cancel the safety timer,
take the held chunks and transcript out of the buffer, show the speaking
state if any chunk was held, replay the held transcript, and queue every
held chunk for playback in order. -/
def releaseHeldAudio (s : GrokState) : GrokState :=
  let chunks := s.heldAudioChunks
  let heldText := s.heldTranscriptText
  let s := { s with holdingForTranscript := false, holdTimeout := false,
                    heldAudioChunks := [], heldTranscriptText := "" }
  let s := if chunks.isEmpty then s else { s with isSpeaking := true }
  let s := if heldText = "" then s
           else { s with currentTranscript := heldText,
                         assistantEmits := s.assistantEmits ++ [heldText] }
  chunks.foldl (fun acc c => queueAudioPlayback c acc) s

/-- `sendVisionQuery(query)` run to completion: bail out if a query is
already pending; acquire the webcam on first use (fails when the
environment has no camera); capture a frame; set the pending/suppressing
flags; flush the audio queue; send the query if the socket is open.
Returns the success flag together with the updated state. -/
def sendVisionQuery (env : GrokEnv) (query : String) (s : GrokState) : Bool × GrokState :=
  if s.visionPending then (false, s)
  else
    let camPair : Bool × GrokState :=
      if s.visionEnabled then (true, s)
      else if env.cameraOk then (true, { s with visionEnabled := true })
      else (false, s)
    if camPair.1 = false then (false, camPair.2)
    else
      let s := camPair.2
      let s := { s with visionPending := true, visionSuppressing := true }
      let s := flushAudioQueue s
      if env.wsOpen then
        (true, { s with visionQueriesSent := s.visionQueriesSent ++ [(env.frame, query)] })
      else
        (false, { s with visionPending := false })

/-- `_onUserTranscriptReceived(text)`: ignore unless holding; cancel the
safety timer; on a vision trigger discard the whole hold buffer, enter
suppression, flush playback and dispatch the vision query (clearing the
suppression flags again if the dispatch fails); otherwise release the held
audio.  The source runs the failure branch in the promise continuation of
`sendVisionQuery(...).then(...)`; no other arbiter transition can observe
the gap, so it is folded into the same step. -/
def onUserTranscriptReceived (env : GrokEnv) (text : String) (s : GrokState) : GrokState :=
  if s.holdingForTranscript = false then s
  else
    let s := { s with holdTimeout := false }
    if containsVisionTrigger text then
      let s := { s with holdingForTranscript := false, heldAudioChunks := [],
                        heldTranscriptText := "", currentTranscript := "",
                        visionSuppressing := true }
      let s := flushAudioQueue s
      let sent := sendVisionQuery env text s
      if sent.1 then sent.2
      else { sent.2 with visionSuppressing := false, visionPending := false }
    else
      releaseHeldAudio s

/-- The inbound events the arbiter consumes.  `blobFrame` is the arrival of
a binary frame; `blobResolve` is the later resolution of the oldest
outstanding `arrayBuffer()` promise; `holdTimeoutFire` is the 3000 ms
safety timer going off. -/
inductive Event where
  | blobFrame (c : Chunk)
  | blobResolve
  | audioDelta (c : Chunk)
  | transcriptDelta (d : String)
  | transcriptDone (t : String)
  | speechStarted
  | speechStopped
  | responseCreated
  | responseDone
  | userTranscript (t : String)
  | visionResponse (t : String)
  | holdTimeoutFire
  | playbackEnded
deriving DecidableEq, Repr

/-- One synchronous run of `handleMessage` (or of the timer / promise /
`onended` callback) on a single event, translated case by case from the
source's `switch`. -/
def step (env : GrokEnv) (s : GrokState) : Event → GrokState
  | .blobFrame c =>
      if s.visionSuppressing then s
      else if s.holdingForTranscript then
        { s with pendingBlobs := s.pendingBlobs ++ [(c, .toHold)] }
      else
        { s with pendingBlobs := s.pendingBlobs ++ [(c, .toQueue)] }
  | .blobResolve =>
      match s.pendingBlobs with
      | [] => s
      | (c, m) :: rest =>
        let s := { s with pendingBlobs := rest }
        match m with
        | .toHold => { s with heldAudioChunks := s.heldAudioChunks ++ [c] }
        | .toQueue => queueAudioPlayback c s
  | .audioDelta c =>
      if s.visionSuppressing then s
      else if s.holdingForTranscript then
        { s with heldAudioChunks := s.heldAudioChunks ++ [c] }
      else queueAudioPlayback c s
  | .transcriptDelta d =>
      if s.visionSuppressing then s
      else if s.holdingForTranscript then
        { s with heldTranscriptText := s.heldTranscriptText ++ d }
      else
        { s with currentTranscript := s.currentTranscript ++ d,
                 assistantEmits := s.assistantEmits ++ [s.currentTranscript ++ d] }
  | .transcriptDone t =>
      if s.visionSuppressing then { s with currentTranscript := "" }
      else if s.holdingForTranscript then s
      else
        { s with currentTranscript := "",
                 assistantEmits :=
                   s.assistantEmits ++ [if t = "" then s.currentTranscript else t] }
  | .speechStarted =>
      let s := { s with isUserSpeaking := true }
      if s.isSpeaking || s.isPlaying || !s.audioQueue.isEmpty then
        let s := flushAudioQueue s
        { s with currentTranscript := "" }
      else s
  | .speechStopped =>
      startHoldingAudio { s with isUserSpeaking := false }
  | .responseCreated =>
      if s.visionSuppressing then s
      else if s.holdingForTranscript then s
      else { s with isSpeaking := true }
  | .responseDone =>
      if s.visionSuppressing then s
      else if s.holdingForTranscript then s
      else { s with isSpeaking := false }
  | .userTranscript t =>
      if t = "" then s else onUserTranscriptReceived env t s
  | .visionResponse _ =>
      { s with visionSuppressing := false, visionPending := false,
               visionEnabled := false }
  | .holdTimeoutFire =>
      if s.holdTimeout && s.holdingForTranscript then releaseHeldAudio s else s
  | .playbackEnded =>
      playNextAudio s

/-- Fold `step` over a list of events. -/
def run (env : GrokEnv) (s : GrokState) : List Event → GrokState
  | [] => s
  | e :: es => run env (step env s e) es

/-- The inbound audio chunks of a trace, in arrival order (both encodings). -/
def arrivals : List Event → List Chunk
  | [] => []
  | .audioDelta c :: es => c :: arrivals es
  | .blobFrame c :: es => c :: arrivals es
  | _ :: es => arrivals es

/-- Agent-side events that can arrive between `speech_stopped` and the
resolution of the hold: audio in either encoding (and the resolution of a
blob promise), transcript deltas and completions, and response lifecycle
markers.  Excludes the two resolving events (`userTranscript`,
`holdTimeoutFire`) and the user's own speech markers. -/
def agentHoldEvent : Event → Bool
  | .audioDelta _ => true
  | .blobFrame _ => true
  | .blobResolve => true
  | .transcriptDelta _ => true
  | .transcriptDone _ => true
  | .responseCreated => true
  | .responseDone => true
  | _ => false

/-- Traces free of binary-frame events (all audio arrives as base64
deltas). -/
def noBlobEvent : Event → Bool
  | .blobFrame _ => false
  | .blobResolve => false
  | _ => true

/-- An event is safe to handle in state `s` for the purposes of the
flag invariant: a `speech_stopped` only while not suppressing. -/
def stopOk (s : GrokState) : Event → Bool
  | Event.speechStopped => !s.visionSuppressing
  | _ => true

/-- Along a trace, every `speech_stopped` is handled while not
suppressing. -/
def noStopDuringSuppress (env : GrokEnv) : GrokState → List Event → Bool
  | _, [] => true
  | s, e :: es => stopOk s e && noStopDuringSuppress env (step env s e) es

/-- RMS energy of `analyzeVowelFromAudio`: the source accumulates
`float32Array[i] * float32Array[i]` for `i = 1 .. n-1` (the sample at index
0 only ever appears as a predecessor), divides by `n` and takes the square
root. -/
noncomputable def vowelEnergy (buf : List ℝ) : ℝ :=
  Real.sqrt (((buf.tail.map fun x => x * x).sum) / buf.length)

/-- High-frequency content: root mean square of the absolute
sample-to-sample differences. -/
noncomputable def vowelHighFreq (buf : List ℝ) : ℝ :=
  Real.sqrt ((((buf.zip buf.tail).map fun p => |p.2 - p.1| * |p.2 - p.1|).sum) / buf.length)

/-- Zero-crossing rate: the number of consecutive pairs whose signs (in the
sense of `x >= 0`) differ, divided by the buffer length. -/
noncomputable def vowelZCR (buf : List ℝ) : ℝ :=
  (((buf.zip buf.tail).countP fun p => !(decide (0 ≤ p.2) == decide (0 ≤ p.1))) : ℝ)
    / buf.length

/-- `analyzeVowelFromAudio(float32Array, sampleRate)`.  The sample-rate
argument is accepted and ignored, as in the source.  Below the silence
threshold `0.005` the result is `(null, 0)`; otherwise the vowel is chosen
by fixed thresholds on the zero-crossing rate and the high-frequency ratio,
and the intensity is the energy scaled by `40` and clamped to `1`. -/
noncomputable def analyzeVowelFromAudio (buf : List ℝ) (_sampleRate : ℝ) :
    Option Char × ℝ :=
  let energy := vowelEnergy buf
  if energy < 0.005 then (none, 0)
  else
    let hfRatio := vowelHighFreq buf / (energy + 0.001)
    let zcr := vowelZCR buf
    let vowel : Char :=
      if 0.40 < zcr ∧ 0.7 < hfRatio then 'i'
      else if 0.28 < zcr ∧ 0.50 < hfRatio then 'e'
      else if zcr < 0.13 ∧ hfRatio < 0.22 then 'u'
      else if zcr < 0.18 ∧ hfRatio < 0.30 then 'o'
      else 'a'
    (some vowel, min 1 (energy * 40))

/-- Storing into an `Int16Array` truncates the scaled sample toward zero. -/
def truncQ (q : ℚ) : ℤ := if q < 0 then ⌈q⌉ else ⌊q⌋

/-- `float32ToPCM16(float32Array)`: clamp each sample to `[-1, 1]`, scale
negative samples by `0x8000` and non-negative ones by `0x7FFF`, and store
as a 16-bit integer. -/
def float32ToPCM16 (xs : List ℚ) : List ℤ :=
  xs.map fun x =>
    let sample := max (-1) (min 1 x)
    if sample < 0 then truncQ (sample * 0x8000) else truncQ (sample * 0x7FFF)

/-- Classifies a pending blob continuation as a hold-buffer push. -/
def holdPending : Chunk × BlobMode → Bool
  | (_, BlobMode.toHold) => true
  | (_, BlobMode.toQueue) => false

theorem queueAudioPlayback_enqueued (c : Chunk) (s : GrokState) :
    (queueAudioPlayback c s).enqueued = s.enqueued ++ [c] := by
  unfold queueAudioPlayback playNextAudio
  dsimp only
  split
  · rfl
  · split <;> rfl

theorem queueAudioPlayback_same (c : Chunk) (s : GrokState) :
    (queueAudioPlayback c s).holdingForTranscript = s.holdingForTranscript
    ∧ (queueAudioPlayback c s).heldAudioChunks = s.heldAudioChunks
    ∧ (queueAudioPlayback c s).heldTranscriptText = s.heldTranscriptText
    ∧ (queueAudioPlayback c s).visionSuppressing = s.visionSuppressing
    ∧ (queueAudioPlayback c s).visionPending = s.visionPending
    ∧ (queueAudioPlayback c s).visionEnabled = s.visionEnabled
    ∧ (queueAudioPlayback c s).pendingBlobs = s.pendingBlobs
    ∧ (queueAudioPlayback c s).holdTimeout = s.holdTimeout
    ∧ (queueAudioPlayback c s).visionQueriesSent = s.visionQueriesSent := by
  unfold queueAudioPlayback playNextAudio
  dsimp only
  split
  · exact ⟨rfl, rfl, rfl, rfl, rfl, rfl, rfl, rfl, rfl⟩
  · split <;> exact ⟨rfl, rfl, rfl, rfl, rfl, rfl, rfl, rfl, rfl⟩

theorem foldlQueue_enqueued (cs : List Chunk) (s : GrokState) :
    (cs.foldl (fun acc c => queueAudioPlayback c acc) s).enqueued = s.enqueued ++ cs := by
  induction cs generalizing s with
  | nil => simp
  | cons c cs ih =>
      rw [List.foldl_cons, ih, queueAudioPlayback_enqueued, List.append_assoc]
      rfl

theorem foldlQueue_same (cs : List Chunk) (s : GrokState) :
    (cs.foldl (fun acc c => queueAudioPlayback c acc) s).holdingForTranscript
        = s.holdingForTranscript
    ∧ (cs.foldl (fun acc c => queueAudioPlayback c acc) s).heldAudioChunks
        = s.heldAudioChunks
    ∧ (cs.foldl (fun acc c => queueAudioPlayback c acc) s).visionSuppressing
        = s.visionSuppressing
    ∧ (cs.foldl (fun acc c => queueAudioPlayback c acc) s).pendingBlobs
        = s.pendingBlobs
    ∧ (cs.foldl (fun acc c => queueAudioPlayback c acc) s).holdTimeout
        = s.holdTimeout := by
  induction cs generalizing s with
  | nil => exact ⟨rfl, rfl, rfl, rfl, rfl⟩
  | cons c cs ih =>
      rw [List.foldl_cons]
      obtain ⟨q1, q2, q3, q4, q5, q6, q7, q8, q9⟩ := queueAudioPlayback_same c s
      obtain ⟨f1, f2, f3, f4, f5⟩ := ih (queueAudioPlayback c s)
      exact ⟨f1.trans q1, f2.trans q2, f3.trans q4, f4.trans q7, f5.trans q8⟩

theorem releaseHeldAudio_enqueued (s : GrokState) :
    (releaseHeldAudio s).enqueued = s.enqueued ++ s.heldAudioChunks := by
  unfold releaseHeldAudio
  dsimp only
  split <;> split <;> rw [foldlQueue_enqueued]

theorem releaseHeldAudio_same (s : GrokState) :
    (releaseHeldAudio s).holdingForTranscript = false
    ∧ (releaseHeldAudio s).heldAudioChunks = []
    ∧ (releaseHeldAudio s).visionSuppressing = s.visionSuppressing
    ∧ (releaseHeldAudio s).pendingBlobs = s.pendingBlobs
    ∧ (releaseHeldAudio s).holdTimeout = false := by
  unfold releaseHeldAudio
  dsimp only
  split <;> split <;>
    · obtain ⟨f1, f2, f3, f4, f5⟩ := foldlQueue_same s.heldAudioChunks _
      exact ⟨f1, f2, f3, f4, f5⟩

theorem sendVisionQuery_same (env : GrokEnv) (q : String) (s : GrokState) :
    (sendVisionQuery env q s).2.holdingForTranscript = s.holdingForTranscript
    ∧ (sendVisionQuery env q s).2.heldAudioChunks = s.heldAudioChunks
    ∧ (sendVisionQuery env q s).2.enqueued = s.enqueued
    ∧ (sendVisionQuery env q s).2.pendingBlobs = s.pendingBlobs
    ∧ (sendVisionQuery env q s).2.holdTimeout = s.holdTimeout := by
  unfold sendVisionQuery flushAudioQueue
  dsimp only
  repeat' split
  all_goals exact ⟨rfl, rfl, rfl, rfl, rfl⟩

/-- A benign environment: camera available, socket open. -/
def envA : GrokEnv := { cameraOk := true, wsOpen := true, frame := 0 }

/-- Claim C1: for a hold cycle resolved by a user transcript containing a
vision trigger (with a dispatchable query: no query already pending, camera
available, socket open), all chunks buffered in the cycle are discarded,
nothing is handed to the playback queue, a vision query carrying the
captured frame and the transcript text is sent, and the arbiter enters
suppression. -/
theorem c1_vision_trigger_discards_and_dispatches (env : GrokEnv) (s : GrokState)
    (t : String)
    (hh : s.holdingForTranscript = true) (hp : s.visionPending = false)
    (ht : containsVisionTrigger t = true) (hcam : env.cameraOk = true)
    (hws : env.wsOpen = true) :
    (step env s (Event.userTranscript t)).heldAudioChunks = []
    ∧ (step env s (Event.userTranscript t)).audioQueue = []
    ∧ (step env s (Event.userTranscript t)).enqueued = s.enqueued
    ∧ (step env s (Event.userTranscript t)).visionQueriesSent
        = s.visionQueriesSent ++ [(env.frame, t)]
    ∧ (step env s (Event.userTranscript t)).visionSuppressing = true
    ∧ (step env s (Event.userTranscript t)).holdingForTranscript = false := by
  have hne : t ≠ "" := by
    rintro rfl
    rw [show containsVisionTrigger "" = false from by decide] at ht
    exact Bool.false_ne_true ht
  cases hve : s.visionEnabled <;>
    simp [step, onUserTranscriptReceived, sendVisionQuery, flushAudioQueue,
      hh, hp, ht, hcam, hws, hne, hve]

/-- Witness for C1: a concrete hold cycle with three buffered chunks,
resolved by the trigger transcript "look at this". -/
theorem c1_witness :
    (step envA (run envA initState
        [Event.speechStopped, Event.audioDelta 1, Event.audioDelta 2, Event.audioDelta 3])
        (Event.userTranscript "look at this")).heldAudioChunks = []
    ∧ (step envA (run envA initState
        [Event.speechStopped, Event.audioDelta 1, Event.audioDelta 2, Event.audioDelta 3])
        (Event.userTranscript "look at this")).audioQueue = []
    ∧ (step envA (run envA initState
        [Event.speechStopped, Event.audioDelta 1, Event.audioDelta 2, Event.audioDelta 3])
        (Event.userTranscript "look at this")).enqueued
        = (run envA initState
            [Event.speechStopped, Event.audioDelta 1, Event.audioDelta 2,
             Event.audioDelta 3]).enqueued
    ∧ (step envA (run envA initState
        [Event.speechStopped, Event.audioDelta 1, Event.audioDelta 2, Event.audioDelta 3])
        (Event.userTranscript "look at this")).visionQueriesSent
        = (run envA initState
            [Event.speechStopped, Event.audioDelta 1, Event.audioDelta 2,
             Event.audioDelta 3]).visionQueriesSent ++ [(envA.frame, "look at this")]
    ∧ (step envA (run envA initState
        [Event.speechStopped, Event.audioDelta 1, Event.audioDelta 2, Event.audioDelta 3])
        (Event.userTranscript "look at this")).visionSuppressing = true
    ∧ (step envA (run envA initState
        [Event.speechStopped, Event.audioDelta 1, Event.audioDelta 2, Event.audioDelta 3])
        (Event.userTranscript "look at this")).holdingForTranscript = false :=
  c1_vision_trigger_discards_and_dispatches envA _ "look at this"
    (by decide) (by decide) (by decide) rfl rfl

/-- Claim C4: handling `input_audio_buffer.speech_started` while the
playback queue is non-empty or a chunk is playing empties the queue, sets
playback idle, and clears the accumulated transcript, all within the same
step. -/
theorem c4_barge_in_flushes (env : GrokEnv) (s : GrokState)
    (h : s.audioQueue ≠ [] ∨ s.isPlaying = true) :
    (step env s Event.speechStarted).audioQueue = []
    ∧ (step env s Event.speechStarted).isPlaying = false
    ∧ (step env s Event.speechStarted).currentTranscript = "" := by
  unfold step flushAudioQueue
  dsimp only
  split
  · exact ⟨rfl, rfl, rfl⟩
  · next hcond =>
      exfalso
      rw [Bool.or_eq_true, Bool.or_eq_true] at hcond
      push_neg at hcond
      rcases h with h | h
      · exact h (List.isEmpty_iff.mp (by
          have := hcond.2
          simpa using this))
      · exact absurd h (by
          have := hcond.1
          simpa using this.2)

/-- Witness for C4: barge-in while a chunk is playing. -/
theorem c4_witness :
    (step envA (run envA initState [Event.audioDelta 7, Event.audioDelta 8])
        Event.speechStarted).audioQueue = []
    ∧ (step envA (run envA initState [Event.audioDelta 7, Event.audioDelta 8])
        Event.speechStarted).isPlaying = false
    ∧ (step envA (run envA initState [Event.audioDelta 7, Event.audioDelta 8])
        Event.speechStarted).currentTranscript = "" :=
  c4_barge_in_flushes envA _ (Or.inr (by decide))

/-- Claim C9 counterexample: a second `speech_stopped` while already
holding does not leave the already-buffered chunks unchanged — the source's
`_startHoldingAudio` reassigns `_heldAudioChunks = []`, so the chunk held
before the second stop is discarded. -/
theorem c9_counterexample :
    (run envA initState [Event.speechStopped, Event.audioDelta 5]).heldAudioChunks = [5]
    ∧ (run envA initState [Event.speechStopped, Event.audioDelta 5,
        Event.speechStopped]).heldAudioChunks = [] :=
  ⟨by decide, by decide⟩

/-- Claim C9 (amended): a second `speech_stopped` while holding re-arms the
3000 ms safety timer and stays in the holding state, but resets the held
buffer and held transcript to empty, discarding everything buffered so
far. -/
theorem c9_amended_second_stop_resets (env : GrokEnv) (s : GrokState)
    (hh : s.holdingForTranscript = true) :
    (step env s Event.speechStopped).holdingForTranscript = true
    ∧ (step env s Event.speechStopped).holdTimeout = true
    ∧ (step env s Event.speechStopped).heldAudioChunks = []
    ∧ (step env s Event.speechStopped).heldTranscriptText = "" := by
  unfold step startHoldingAudio
  exact ⟨rfl, rfl, rfl, rfl⟩

/-- Witness for the amended C9, at a holding state with one buffered
chunk. -/
theorem c9_amended_witness :
    (step envA (run envA initState [Event.speechStopped, Event.audioDelta 5])
        Event.speechStopped).holdingForTranscript = true
    ∧ (step envA (run envA initState [Event.speechStopped, Event.audioDelta 5])
        Event.speechStopped).holdTimeout = true
    ∧ (step envA (run envA initState [Event.speechStopped, Event.audioDelta 5])
        Event.speechStopped).heldAudioChunks = []
    ∧ (step envA (run envA initState [Event.speechStopped, Event.audioDelta 5])
        Event.speechStopped).heldTranscriptText = "" :=
  c9_amended_second_stop_resets envA _ (by decide)

/-- Claim C5: the 3000 ms safety-timer handler performs exactly the same
release as a trigger-free user transcript: starting from the same armed
holding state, the two events produce identical states. -/
theorem c5_timeout_equals_transcript_release (env : GrokEnv) (s : GrokState) (t : String)
    (hh : s.holdingForTranscript = true) (hne : t ≠ "")
    (ht : containsVisionTrigger t = false) (harm : s.holdTimeout = true) :
    step env s (Event.userTranscript t) = step env s Event.holdTimeoutFire := by
  simp only [step, if_neg hne, onUserTranscriptReceived, hh, harm, ht,
    Bool.true_and, Bool.true_eq_false, Bool.false_eq_true, if_false, if_true]
  rfl

/-- Witness for C5: concrete armed hold state, transcript "that is a great
question". -/
theorem c5_witness :
    step envA (run envA initState
        [Event.speechStopped, Event.audioDelta 1, Event.transcriptDelta "hi"])
        (Event.userTranscript "that is a great question")
      = step envA (run envA initState
          [Event.speechStopped, Event.audioDelta 1, Event.transcriptDelta "hi"])
          Event.holdTimeoutFire :=
  c5_timeout_equals_transcript_release envA _ "that is a great question"
    (by decide) (by decide) (by decide) (by decide)

/-- An environment with no camera and a closed socket. -/
def envB : GrokEnv := { cameraOk := false, wsOpen := false, frame := 0 }

/-- Claim C7: suppression always has a bounded exit.  On `vision.response`
the suppression and pending flags are cleared and the camera is released;
and if a trigger resolution cannot dispatch its query (no camera available
for first acquisition, or the socket closed), the trigger step itself ends
with suppression off, so audio is not lost to a dead suppression state. -/
theorem c7_suppression_bounded_exit (env : GrokEnv) (s : GrokState) (t txt : String) :
    ((step env s (Event.visionResponse txt)).visionSuppressing = false
     ∧ (step env s (Event.visionResponse txt)).visionPending = false
     ∧ (step env s (Event.visionResponse txt)).visionEnabled = false)
    ∧ (s.holdingForTranscript = true → containsVisionTrigger t = true →
       ((s.visionEnabled = false ∧ env.cameraOk = false) ∨ env.wsOpen = false) →
       (step env s (Event.userTranscript t)).visionSuppressing = false
       ∧ (step env s (Event.userTranscript t)).visionPending = false) := by
  refine ⟨⟨rfl, rfl, rfl⟩, ?_⟩
  intro hh ht hfail
  have hne : t ≠ "" := by
    rintro rfl
    rw [show containsVisionTrigger "" = false from by decide] at ht
    exact Bool.false_ne_true ht
  cases hvp : s.visionPending
  case true =>
    simp [step, if_neg hne, onUserTranscriptReceived, sendVisionQuery,
      flushAudioQueue, hh, ht, hvp]
  case false =>
    rcases hfail with ⟨hve, hcam⟩ | hws
    · simp [step, if_neg hne, onUserTranscriptReceived, sendVisionQuery,
        flushAudioQueue, hh, ht, hvp, hve, hcam]
    · cases hve : s.visionEnabled <;> cases hcam : env.cameraOk <;>
        simp [step, if_neg hne, onUserTranscriptReceived, sendVisionQuery,
          flushAudioQueue, hh, ht, hvp, hws, hve, hcam]

/-- Witness for C7: a concrete vision response, and a trigger resolution in
an environment with no camera and a closed socket. -/
theorem c7_witness :
    ((step envB (run envB initState [Event.speechStopped])
        (Event.visionResponse "seen")).visionSuppressing = false
     ∧ (step envB (run envB initState [Event.speechStopped])
        (Event.visionResponse "seen")).visionPending = false
     ∧ (step envB (run envB initState [Event.speechStopped])
        (Event.visionResponse "seen")).visionEnabled = false)
    ∧ ((step envB (run envB initState [Event.speechStopped])
        (Event.userTranscript "look at this")).visionSuppressing = false
       ∧ (step envB (run envB initState [Event.speechStopped])
        (Event.userTranscript "look at this")).visionPending = false) :=
  ⟨(c7_suppression_bounded_exit envB (run envB initState [Event.speechStopped])
      "look at this" "seen").1,
   (c7_suppression_bounded_exit envB (run envB initState [Event.speechStopped])
      "look at this" "seen").2 (by decide) (by decide) (Or.inr rfl)⟩

theorem c2_hold_aux (env : GrokEnv) (evs : List Event) : ∀ s : GrokState,
    s.holdingForTranscript = true →
    s.pendingBlobs.all holdPending = true →
    evs.all agentHoldEvent = true →
    (run env s evs).enqueued = s.enqueued
    ∧ (run env s evs).holdingForTranscript = true
    ∧ (run env s evs).pendingBlobs.all holdPending = true := by
  induction evs with
  | nil => intro s hh hp _; exact ⟨rfl, hh, hp⟩
  | cons e es ih =>
      intro s hh hp hall
      rw [List.all_cons, Bool.and_eq_true] at hall
      obtain ⟨he, hes⟩ := hall
      have key : (step env s e).enqueued = s.enqueued
          ∧ (step env s e).holdingForTranscript = true
          ∧ (step env s e).pendingBlobs.all holdPending = true := by
        cases e with
        | blobFrame c =>
            cases hv : s.visionSuppressing <;>
              simp [step, hv, hh, List.all_append, hp, holdPending]
        | blobResolve =>
            match hpb : s.pendingBlobs with
            | [] => simp [step, hpb, hh]
            | (c, BlobMode.toHold) :: rest =>
                rw [hpb, List.all_cons] at hp
                simp only [holdPending, Bool.true_and] at hp
                simp [step, hpb, hh, hp]
            | (c, BlobMode.toQueue) :: rest =>
                rw [hpb, List.all_cons] at hp
                simp [holdPending] at hp
        | audioDelta c =>
            cases hv : s.visionSuppressing <;> simp [step, hv, hh, hp]
        | transcriptDelta d =>
            cases hv : s.visionSuppressing <;> simp [step, hv, hh, hp]
        | transcriptDone t =>
            cases hv : s.visionSuppressing <;> simp [step, hv, hh, hp]
        | responseCreated =>
            cases hv : s.visionSuppressing <;> simp [step, hv, hh, hp]
        | responseDone =>
            cases hv : s.visionSuppressing <;> simp [step, hv, hh, hp]
        | speechStarted => simp [agentHoldEvent] at he
        | speechStopped => simp [agentHoldEvent] at he
        | userTranscript t => simp [agentHoldEvent] at he
        | visionResponse t => simp [agentHoldEvent] at he
        | holdTimeoutFire => simp [agentHoldEvent] at he
        | playbackEnded => simp [agentHoldEvent] at he
      obtain ⟨k1, k2, k3⟩ := key
      obtain ⟨r1, r2, r3⟩ := ih (step env s e) k2 k3 hes
      rw [run]
      exact ⟨r1.trans k1, r2, r3⟩

/-- Claim C2: while the arbiter is holding (and every outstanding blob read
was registered during the hold), no sequence of inbound agent audio,
transcript, or response-lifecycle events delivers any chunk to the playback
queue before the hold is resolved by a user transcript or the safety
timer. -/
theorem c2_no_chunk_before_resolution (env : GrokEnv) (s : GrokState) (evs : List Event)
    (hh : s.holdingForTranscript = true)
    (hp : s.pendingBlobs.all holdPending = true)
    (he : evs.all agentHoldEvent = true) :
    (run env s evs).enqueued = s.enqueued :=
  (c2_hold_aux env evs s hh hp he).1

/-- Witness for C2: a fresh hold cycle receiving both audio encodings, a
blob resolution, a transcript delta and a response marker delivers
nothing. -/
theorem c2_witness :
    (run envA (run envA initState [Event.speechStopped])
        [Event.audioDelta 1, Event.blobFrame 2, Event.blobResolve,
         Event.transcriptDelta "x", Event.responseCreated]).enqueued
      = (run envA initState [Event.speechStopped]).enqueued :=
  c2_no_chunk_before_resolution envA _ _ (by decide) (by decide) (by decide)

/-- Claim C6 counterexample: the holding and suppressing flags can both be
true in a reachable state — a `speech_stopped` handled while a vision query
is outstanding starts a hold cycle without checking `visionSuppressing`. -/
theorem c6_counterexample :
    (run envA initState [Event.speechStopped, Event.userTranscript "look at this",
        Event.speechStopped]).holdingForTranscript = true
    ∧ (run envA initState [Event.speechStopped, Event.userTranscript "look at this",
        Event.speechStopped]).visionSuppressing = true :=
  ⟨by decide, by decide⟩

theorem sendVisionQuery_snd_holding (env : GrokEnv) (q : String) (s : GrokState) :
    (sendVisionQuery env q s).2.holdingForTranscript = s.holdingForTranscript :=
  (sendVisionQuery_same env q s).1

theorem releaseHeldAudio_holding_false (s : GrokState) :
    (releaseHeldAudio s).holdingForTranscript = false :=
  (releaseHeldAudio_same s).1

theorem releaseHeldAudio_suppress_eq (s : GrokState) :
    (releaseHeldAudio s).visionSuppressing = s.visionSuppressing :=
  (releaseHeldAudio_same s).2.2.1

theorem queueAudioPlayback_holding_eq (c : Chunk) (s : GrokState) :
    (queueAudioPlayback c s).holdingForTranscript = s.holdingForTranscript :=
  (queueAudioPlayback_same c s).1

theorem queueAudioPlayback_suppress_eq (c : Chunk) (s : GrokState) :
    (queueAudioPlayback c s).visionSuppressing = s.visionSuppressing :=
  (queueAudioPlayback_same c s).2.2.2.1

theorem step_hold_suppress (env : GrokEnv) (s : GrokState) (e : Event)
    (h : (s.holdingForTranscript && s.visionSuppressing) = false)
    (hstop : e = Event.speechStopped → s.visionSuppressing = false) :
    ((step env s e).holdingForTranscript && (step env s e).visionSuppressing) = false := by
  cases e with
  | blobFrame c =>
      cases hv : s.visionSuppressing <;>
        cases hhold : s.holdingForTranscript <;>
          simp_all [step]
  | blobResolve =>
      match hpb : s.pendingBlobs with
      | [] => simpa [step, hpb] using h
      | (c, BlobMode.toHold) :: rest => simpa [step, hpb] using h
      | (c, BlobMode.toQueue) :: rest =>
          simpa [step, hpb, queueAudioPlayback_holding_eq,
            queueAudioPlayback_suppress_eq] using h
  | audioDelta c =>
      cases hv : s.visionSuppressing
      · cases hhold : s.holdingForTranscript
        · simpa [step, hv, hhold, queueAudioPlayback_holding_eq,
            queueAudioPlayback_suppress_eq] using h
        · simp_all [step]
      · simp_all [step]
  | transcriptDelta d =>
      cases hv : s.visionSuppressing <;>
        cases hhold : s.holdingForTranscript <;> simp_all [step]
  | transcriptDone t =>
      cases hv : s.visionSuppressing <;>
        cases hhold : s.holdingForTranscript <;> simp_all [step]
  | speechStarted =>
      simp only [step, flushAudioQueue]
      split <;> simpa using h
  | speechStopped =>
      simp [step, startHoldingAudio, hstop rfl]
  | responseCreated =>
      cases hv : s.visionSuppressing <;>
        cases hhold : s.holdingForTranscript <;> simp_all [step]
  | responseDone =>
      cases hv : s.visionSuppressing <;>
        cases hhold : s.holdingForTranscript <;> simp_all [step]
  | userTranscript t =>
      by_cases hne : t = ""
      · simpa [step, hne] using h
      · cases hhold : s.holdingForTranscript
        · simpa [step, if_neg hne, onUserTranscriptReceived, hhold] using h
        · simp only [step, if_neg hne, onUserTranscriptReceived, hhold,
            Bool.true_eq_false, if_false]
          by_cases ht : containsVisionTrigger t = true
          · simp only [ht, if_true]
            split <;>
              simp [sendVisionQuery_snd_holding, flushAudioQueue]
          · simp only [ht, if_false]
            simp [releaseHeldAudio_holding_false]
  | visionResponse t =>
      simp [step]
  | holdTimeoutFire =>
      simp only [step]
      split
      · simp [releaseHeldAudio_holding_false]
      · exact h
  | playbackEnded =>
      simp only [step, playNextAudio]
      split <;> simpa using h

theorem c6_aux (env : GrokEnv) (evs : List Event) : ∀ s : GrokState,
    (s.holdingForTranscript && s.visionSuppressing) = false →
    noStopDuringSuppress env s evs = true →
    ((run env s evs).holdingForTranscript && (run env s evs).visionSuppressing) = false := by
  induction evs with
  | nil => intro s h _; exact h
  | cons e es ih =>
      intro s h hns
      rw [noStopDuringSuppress, Bool.and_eq_true] at hns
      obtain ⟨h1, h2⟩ := hns
      rw [run]
      refine ih (step env s e) (step_hold_suppress env s e h ?_) h2
      intro he
      rw [he] at h1
      simpa [stopOk] using h1

/-- Claim C6 (amended): the at-most-one-of-holding-and-suppressing
invariant holds in every state reachable from the initial state by a trace
in which no `speech_stopped` event is handled while suppression is active;
a `speech_stopped` handled during an outstanding vision query makes both
flags true (see the counterexample). -/
theorem c6_amended_invariant (env : GrokEnv) (evs : List Event)
    (h : noStopDuringSuppress env initState evs = true) :
    ((run env initState evs).holdingForTranscript
      && (run env initState evs).visionSuppressing) = false :=
  c6_aux env evs initState rfl h

/-- Witness for the amended C6: a full vision cycle followed by a new hold
cycle after the vision response. -/
theorem c6_amended_witness :
    ((run envA initState [Event.speechStopped, Event.audioDelta 1,
        Event.userTranscript "look at this", Event.visionResponse "a cat",
        Event.speechStopped]).holdingForTranscript
      && (run envA initState [Event.speechStopped, Event.audioDelta 1,
        Event.userTranscript "look at this", Event.visionResponse "a cat",
        Event.speechStopped]).visionSuppressing) = false :=
  c6_amended_invariant envA _ (by decide)

theorem queueAudioPlayback_held_eq (c : Chunk) (s : GrokState) :
    (queueAudioPlayback c s).heldAudioChunks = s.heldAudioChunks :=
  (queueAudioPlayback_same c s).2.1

theorem releaseHeldAudio_held_empty (s : GrokState) :
    (releaseHeldAudio s).heldAudioChunks = [] :=
  (releaseHeldAudio_same s).2.1

theorem sendVisionQuery_snd_held (env : GrokEnv) (q : String) (s : GrokState) :
    (sendVisionQuery env q s).2.heldAudioChunks = s.heldAudioChunks :=
  (sendVisionQuery_same env q s).2.1

theorem sendVisionQuery_snd_enqueued (env : GrokEnv) (q : String) (s : GrokState) :
    (sendVisionQuery env q s).2.enqueued = s.enqueued :=
  (sendVisionQuery_same env q s).2.2.1

theorem c3_same_step (env : GrokEnv) (s : GrokState) (e : Event)
    (f1 : (step env s e).enqueued = s.enqueued)
    (f2 : (step env s e).heldAudioChunks = s.heldAudioChunks)
    (f3 : (step env s e).holdingForTranscript = s.holdingForTranscript)
    (hinv : s.holdingForTranscript = false → s.heldAudioChunks = []) :
    List.Sublist ((step env s e).enqueued ++ (step env s e).heldAudioChunks)
      ((s.enqueued ++ s.heldAudioChunks) ++ arrivals [e])
    ∧ ((step env s e).holdingForTranscript = false →
        (step env s e).heldAudioChunks = []) := by
  rw [f1, f2, f3]
  exact ⟨List.sublist_append_left _ _, hinv⟩

theorem c3_discard_step (env : GrokEnv) (s : GrokState) (e : Event)
    (f1 : (step env s e).enqueued = s.enqueued)
    (f2 : (step env s e).heldAudioChunks = []) :
    List.Sublist ((step env s e).enqueued ++ (step env s e).heldAudioChunks)
      ((s.enqueued ++ s.heldAudioChunks) ++ arrivals [e])
    ∧ ((step env s e).holdingForTranscript = false →
        (step env s e).heldAudioChunks = []) := by
  rw [f1, f2, List.append_nil, List.append_assoc]
  exact ⟨List.sublist_append_left _ _, fun _ => rfl⟩

theorem c3_release_step (env : GrokEnv) (s : GrokState) (e : Event)
    (f1 : (step env s e).enqueued = s.enqueued ++ s.heldAudioChunks)
    (f2 : (step env s e).heldAudioChunks = []) :
    List.Sublist ((step env s e).enqueued ++ (step env s e).heldAudioChunks)
      ((s.enqueued ++ s.heldAudioChunks) ++ arrivals [e])
    ∧ ((step env s e).holdingForTranscript = false →
        (step env s e).heldAudioChunks = []) := by
  rw [f1, f2, List.append_nil]
  exact ⟨List.sublist_append_left _ _, fun _ => rfl⟩

theorem c3_inorder_aux (env : GrokEnv) (evs : List Event) : ∀ s : GrokState,
    evs.all noBlobEvent = true →
    (s.holdingForTranscript = false → s.heldAudioChunks = []) →
    List.Sublist ((run env s evs).enqueued ++ (run env s evs).heldAudioChunks)
      ((s.enqueued ++ s.heldAudioChunks) ++ arrivals evs)
    ∧ ((run env s evs).holdingForTranscript = false →
        (run env s evs).heldAudioChunks = []) := by
  induction evs with
  | nil =>
      intro s _ hinv
      exact ⟨by simpa [run, arrivals] using
        List.Sublist.refl (s.enqueued ++ s.heldAudioChunks), hinv⟩
  | cons e es ih =>
      intro s hall hinv
      rw [List.all_cons, Bool.and_eq_true] at hall
      obtain ⟨he, hes⟩ := hall
      rw [run]
      have harr : arrivals (e :: es) = arrivals [e] ++ arrivals es := by
        cases e <;> rfl
      have key : List.Sublist
            ((step env s e).enqueued ++ (step env s e).heldAudioChunks)
            ((s.enqueued ++ s.heldAudioChunks) ++ arrivals [e])
          ∧ ((step env s e).holdingForTranscript = false →
              (step env s e).heldAudioChunks = []) := by
        cases e with
        | blobFrame c => simp [noBlobEvent] at he
        | blobResolve => simp [noBlobEvent] at he
        | audioDelta c =>
            cases hv : s.visionSuppressing
            · cases hh : s.holdingForTranscript
              · have h0 : s.heldAudioChunks = [] := hinv hh
                have f1 : (step env s (Event.audioDelta c)).enqueued
                    = s.enqueued ++ [c] := by
                  simp [step, hv, hh, queueAudioPlayback_enqueued]
                have f2 : (step env s (Event.audioDelta c)).heldAudioChunks = [] := by
                  simp [step, hv, hh, queueAudioPlayback_held_eq, h0]
                constructor
                · simp only [f1, f2, h0, List.append_nil, arrivals]
                  exact List.Sublist.refl _
                · intro _
                  exact f2
              · constructor
                · have f1 : (step env s (Event.audioDelta c)).enqueued
                      = s.enqueued := by simp [step, hv, hh]
                  have f2 : (step env s (Event.audioDelta c)).heldAudioChunks
                      = s.heldAudioChunks ++ [c] := by simp [step, hv, hh]
                  rw [f1, f2, ← List.append_assoc]
                  exact List.Sublist.refl _
                · intro hf
                  simp [step, hv, hh] at hf
            · refine c3_same_step env s _ ?_ ?_ ?_ hinv <;> simp [step, hv]
        | transcriptDelta d =>
            refine c3_same_step env s _ ?_ ?_ ?_ hinv <;>
              cases hv : s.visionSuppressing <;>
                cases hh : s.holdingForTranscript <;> simp [step, hv, hh]
        | transcriptDone t =>
            refine c3_same_step env s _ ?_ ?_ ?_ hinv <;>
              cases hv : s.visionSuppressing <;>
                cases hh : s.holdingForTranscript <;> simp [step, hv, hh]
        | responseCreated =>
            refine c3_same_step env s _ ?_ ?_ ?_ hinv <;>
              cases hv : s.visionSuppressing <;>
                cases hh : s.holdingForTranscript <;> simp [step, hv, hh]
        | responseDone =>
            refine c3_same_step env s _ ?_ ?_ ?_ hinv <;>
              cases hv : s.visionSuppressing <;>
                cases hh : s.holdingForTranscript <;> simp [step, hv, hh]
        | speechStarted =>
            refine c3_same_step env s _ ?_ ?_ ?_ hinv <;>
              · simp only [step, flushAudioQueue]
                split <;> rfl
        | speechStopped =>
            refine c3_discard_step env s _ ?_ ?_ <;>
              simp [step, startHoldingAudio]
        | userTranscript t =>
            by_cases hne : t = ""
            · refine c3_same_step env s _ ?_ ?_ ?_ hinv <;> simp [step, hne]
            · cases hh : s.holdingForTranscript
              · refine c3_same_step env s _ ?_ ?_ ?_ hinv <;>
                  simp [step, if_neg hne, onUserTranscriptReceived, hh]
              · by_cases ht : containsVisionTrigger t = true
                · refine c3_discard_step env s _ ?_ ?_
                  · simp only [step, if_neg hne, onUserTranscriptReceived, hh,
                      Bool.true_eq_false, if_false, ht, if_true]
                    split <;>
                      simp [sendVisionQuery_snd_enqueued, flushAudioQueue]
                  · simp only [step, if_neg hne, onUserTranscriptReceived, hh,
                      Bool.true_eq_false, if_false, ht, if_true]
                    split <;>
                      simp [sendVisionQuery_snd_held, flushAudioQueue]
                · refine c3_release_step env s _ ?_ ?_
                  · simp [step, if_neg hne, onUserTranscriptReceived, hh, ht,
                      releaseHeldAudio_enqueued]
                  · simp [step, if_neg hne, onUserTranscriptReceived, hh, ht,
                      releaseHeldAudio_held_empty]
        | visionResponse t =>
            refine c3_same_step env s _ ?_ ?_ ?_ hinv <;> simp [step]
        | holdTimeoutFire =>
            by_cases hg : (s.holdTimeout && s.holdingForTranscript) = true
            · refine c3_release_step env s _ ?_ ?_
              · simp [step, hg, releaseHeldAudio_enqueued]
              · simp [step, hg, releaseHeldAudio_held_empty]
            · refine c3_same_step env s _ ?_ ?_ ?_ hinv <;> simp [step, hg]
        | playbackEnded =>
            refine c3_same_step env s _ ?_ ?_ ?_ hinv <;>
              · simp only [step, playNextAudio]
                split <;> rfl
      obtain ⟨k1, k2⟩ := key
      obtain ⟨r1, r2⟩ := ih (step env s e) hes k2
      constructor
      · refine r1.trans ?_
        rw [harr, ← List.append_assoc]
        exact k1.append_right (arrivals es)
      · exact r2

/-- Claim C3 counterexample: a binary Blob frame is pushed through an
asynchronous arrayBuffer() continuation, so when a base64 delta arrives
before that continuation runs, the blob's chunk reaches the playback queue
after the later delta — the delivered sequence [2, 1] is not a subsequence
of the arrival order [1, 2]. -/
theorem c3_counterexample :
    (run envA initState [Event.blobFrame 1, Event.audioDelta 2,
        Event.blobResolve]).enqueued = [2, 1]
    ∧ arrivals [Event.blobFrame 1, Event.audioDelta 2, Event.blobResolve] = [1, 2]
    ∧ ¬ List.Sublist
        ((run envA initState [Event.blobFrame 1, Event.audioDelta 2,
            Event.blobResolve]).enqueued)
        (arrivals [Event.blobFrame 1, Event.audioDelta 2, Event.blobResolve]) :=
  ⟨by decide, by decide, by decide⟩

/-- Claim C3 (amended): restricted to audio arriving as base64 deltas (no
binary Blob frames, whose asynchronous push can reorder or drop chunks):
a trigger-free resolution delivers the whole held buffer to the playback
queue exactly once, appended in original order, and over any delta-only
trace from the initial state the sequence delivered to playback is a
subsequence of the arrival order. -/
theorem c3_amended_inorder (env : GrokEnv) :
    (∀ (s : GrokState) (t : String), s.holdingForTranscript = true →
        containsVisionTrigger t = false → t ≠ "" →
        (step env s (Event.userTranscript t)).enqueued
          = s.enqueued ++ s.heldAudioChunks)
    ∧ (∀ evs : List Event, evs.all noBlobEvent = true →
        List.Sublist ((run env initState evs).enqueued) (arrivals evs)) := by
  constructor
  · intro s t hh ht hne
    simp [step, if_neg hne, onUserTranscriptReceived, hh, ht,
      releaseHeldAudio_enqueued]
  · intro evs hnb
    have h1 := (c3_inorder_aux env evs initState hnb (fun _ => rfl)).1
    rw [show initState.enqueued = [] from rfl,
      show initState.heldAudioChunks = [] from rfl] at h1
    simp only [List.nil_append] at h1
    exact (List.sublist_append_left _ _).trans h1

/-- Witness for the amended C3: a no-trigger cycle delivering both held
chunks once in order, and a delta-only trace whose delivered chunks form a
subsequence of arrivals. -/
theorem c3_amended_witness :
    (step envA (run envA initState
        [Event.speechStopped, Event.audioDelta 1, Event.audioDelta 2])
        (Event.userTranscript "that is a great question")).enqueued
      = (run envA initState
          [Event.speechStopped, Event.audioDelta 1, Event.audioDelta 2]).enqueued
        ++ (run envA initState
          [Event.speechStopped, Event.audioDelta 1,
           Event.audioDelta 2]).heldAudioChunks
    ∧ List.Sublist
        ((run envA initState [Event.audioDelta 3, Event.speechStopped,
            Event.audioDelta 4, Event.userTranscript "hello there"]).enqueued)
        (arrivals [Event.audioDelta 3, Event.speechStopped, Event.audioDelta 4,
            Event.userTranscript "hello there"]) :=
  ⟨(c3_amended_inorder envA).1 _ "that is a great question"
      (by decide) (by decide) (by decide),
   (c3_amended_inorder envA).2 _ (by decide)⟩

/-- Claim C8: the vowel analyzer is a pure deterministic function; it
ignores the sample rate; every all-zero buffer maps to `(null, 0)`; the
vowel is always one of a, e, i, o, u or null; and the intensity is always
clamped into `[0, 1]`. -/
theorem c8_vowel_analyzer_pure (buf : List ℝ) (rate : ℝ) :
    analyzeVowelFromAudio buf rate = analyzeVowelFromAudio buf rate
    ∧ ((∀ x ∈ buf, x = 0) → analyzeVowelFromAudio buf rate = (none, 0))
    ∧ (analyzeVowelFromAudio buf rate).1 ∈
        ([none, some 'a', some 'e', some 'i', some 'o', some 'u'] :
          List (Option Char))
    ∧ 0 ≤ (analyzeVowelFromAudio buf rate).2
    ∧ (analyzeVowelFromAudio buf rate).2 ≤ 1 := by
  have hnn : (0 : ℝ) ≤ vowelEnergy buf * 40 := by
    unfold vowelEnergy
    positivity
  refine ⟨rfl, ?_, ?_, ?_, ?_⟩
  · intro hz
    have he : vowelEnergy buf = 0 := by
      unfold vowelEnergy
      have hsum : (buf.tail.map fun x => x * x).sum = 0 := by
        apply List.sum_eq_zero
        intro y hy
        rw [List.mem_map] at hy
        obtain ⟨x, hx, rfl⟩ := hy
        rw [hz x (List.mem_of_mem_tail hx), mul_zero]
      rw [hsum, zero_div, Real.sqrt_zero]
    unfold analyzeVowelFromAudio
    dsimp only
    rw [he, if_pos (by norm_num : (0 : ℝ) < 0.005)]
  · unfold analyzeVowelFromAudio
    dsimp only
    split
    · decide
    · repeat' split
      all_goals dsimp only
      all_goals decide
  · unfold analyzeVowelFromAudio
    dsimp only
    split
    · norm_num
    · exact le_min (by norm_num) hnn
  · unfold analyzeVowelFromAudio
    dsimp only
    split
    · norm_num
    · exact min_le_left _ _

/-- Witness for C8: the all-zero singleton buffer analyzes to `(null, 0)`. -/
theorem c8_witness :
    analyzeVowelFromAudio [(0 : ℝ)] 24000 = (none, 0) :=
  (c8_vowel_analyzer_pure [(0 : ℝ)] 24000).2.1 (by simp)

/-- Claim C10: the float-to-PCM16 encoder is total and never overflows:
samples are clamped to `[-1, 1]` before scaling, so every emitted sample is
an integer in `[-32768, 32767]`, with `-1.0` mapped to `-32768` and `1.0`
to `32767`. -/
theorem c10_pcm16_total_range (xs : List ℚ) :
    (∀ y ∈ float32ToPCM16 xs, -32768 ≤ y ∧ y ≤ 32767)
    ∧ float32ToPCM16 [(-1 : ℚ)] = [(-32768 : ℤ)]
    ∧ float32ToPCM16 [(1 : ℚ)] = [(32767 : ℤ)] := by
  refine ⟨?_, ?_, ?_⟩
  · intro y hy
    rw [float32ToPCM16, List.mem_map] at hy
    obtain ⟨x, -, rfl⟩ := hy
    dsimp only
    have h1 : (-1 : ℚ) ≤ max (-1) (min 1 x) := le_max_left _ _
    have h2 : max (-1 : ℚ) (min 1 x) ≤ 1 := max_le (by norm_num) (min_le_left _ _)
    split
    · next hneg =>
        rw [truncQ, if_pos (mul_neg_of_neg_of_pos hneg (by norm_num))]
        constructor
        · rw [show (-32768 : ℤ) = ⌈((-32768 : ℤ) : ℚ)⌉ from
            (Int.ceil_intCast _).symm]
          apply Int.ceil_le_ceil
          push_cast
          nlinarith
        · have hle : ⌈max (-1 : ℚ) (min 1 x) * 0x8000⌉ ≤ (0 : ℤ) :=
            Int.ceil_le.mpr (by push_cast; nlinarith)
          omega
    · next hpos =>
        have h0 : (0 : ℚ) ≤ max (-1) (min 1 x) := not_lt.mp hpos
        rw [truncQ, if_neg (by nlinarith : ¬ max (-1 : ℚ) (min 1 x) * 0x7FFF < 0)]
        constructor
        · have : (0 : ℤ) ≤ ⌊max (-1 : ℚ) (min 1 x) * 0x7FFF⌋ :=
            Int.floor_nonneg.mpr (by nlinarith)
          omega
        · rw [show (32767 : ℤ) = ⌊((32767 : ℤ) : ℚ)⌋ from
            (Int.floor_intCast _).symm]
          apply Int.floor_le_floor
          push_cast
          nlinarith
  · have hmin : min (1 : ℚ) (-1) = -1 := by norm_num
    have hmax : max (-1 : ℚ) (-1 : ℚ) = -1 := by norm_num
    rw [float32ToPCM16]
    simp only [List.map_cons, List.map_nil, hmin, hmax]
    rw [if_pos (by norm_num : (-1 : ℚ) < 0), truncQ,
      if_pos (by norm_num : (-1 : ℚ) * 0x8000 < 0),
      show (-1 : ℚ) * 0x8000 = ((-32768 : ℤ) : ℚ) by norm_num, Int.ceil_intCast]
  · have hmin : min (1 : ℚ) (1 : ℚ) = 1 := by norm_num
    have hmax : max (-1 : ℚ) (1 : ℚ) = 1 := by norm_num
    rw [float32ToPCM16]
    simp only [List.map_cons, List.map_nil, hmin, hmax]
    rw [if_neg (by norm_num : ¬ (1 : ℚ) < 0), truncQ,
      if_neg (by norm_num : ¬ (1 : ℚ) * 0x7FFF < 0),
      show (1 : ℚ) * 0x7FFF = ((32767 : ℤ) : ℚ) by norm_num, Int.floor_intCast]

/-- Witness for C10: the clamped endpoint sample `-1` lands exactly on the
lower bound of the admissible range. -/
theorem c10_witness :
    -32768 ≤ (-32768 : ℤ) ∧ (-32768 : ℤ) ≤ 32767 :=
  (c10_pcm16_total_range [(-1 : ℚ)]).1 (-32768)
    (by rw [(c10_pcm16_total_range [(-1 : ℚ)]).2.1]; exact List.mem_singleton.mpr rfl)
